import Mathlib

/-!
# Verification of the build-orchestrator task repository and pipeline

Shallow embedding of the task lifecycle state machine, the task repository's
SQL operations, and the build pipeline's step handling, translated from the
Rust sources (`src/model/state.rs`, `src/repository/task.rs`,
`src/service/build/service.rs`, `src/api/state.rs`).

Conventions of the embedding:
* the `pkg` table is a `List Row`, each `Row` holding the columns the
  verified operations touch; the `state` column is the raw string the SQL
  statements compare against;
* SQL `UPDATE`/`SELECT` statements become pure functions over `List Row`;
* Rust `String::len` (UTF-8 byte count) is modelled by `rustLen`;
  Rust `str::contains` by `strContains`;
* the async pipeline `do_build` is modelled by `doBuildGo`, which tracks the
  persisted task state through the step list; external subprocesses (git,
  ninja, gn, the installer binaries) are abstracted as succeeding, and the
  cooperative cancellation flag is taken to stay unset, since the verified
  claims concern the control flow around steps, not subprocess outcomes.
-/

namespace ChromiumTool

/-- Task lifecycle states, from `model/state.rs` (`enum TaskState`). -/
inductive TaskState where
  | Pending
  | CheckingOut
  | StartBuild
  | Cleaning
  | GeneratingProject
  | BuildingPreBuild
  | BuildingBase
  | BuildingChrome
  | Combining
  | BuildingInstaller
  | Signing
  | BackingUp
  | Success
  | Failed
  | Cancelled
deriving Repr, DecidableEq

namespace TaskState

/-- `TaskState::as_str` from `model/state.rs` lines 82-100: the string stored
in the `state` column for each variant. -/
def asStr : TaskState → String
  | Pending => "pending"
  | CheckingOut => "checkout..."
  | StartBuild => "start build"
  | Cleaning => "clean..."
  | GeneratingProject => "gen project"
  | BuildingPreBuild => "build pre_build"
  | BuildingBase => "build base"
  | BuildingChrome => "build chrome"
  | Combining => "combining"
  | BuildingInstaller => "build installer"
  | Signing => "sign"
  | BackingUp => "backup"
  | Success => "success"
  | Failed => "failed"
  | Cancelled => "cancelled"

/-- The inherent `TaskState::from_str` from `model/state.rs` lines 102-121
(returns `Option`, accepts every variant including `"cancelled"`).  This is
the parser `do_build` uses on the configured step's `state` field. -/
def fromStr : String → Option TaskState
  | "pending" => some Pending
  | "checkout..." => some CheckingOut
  | "start build" => some StartBuild
  | "clean..." => some Cleaning
  | "gen project" => some GeneratingProject
  | "build pre_build" => some BuildingPreBuild
  | "build base" => some BuildingBase
  | "build chrome" => some BuildingChrome
  | "combining" => some Combining
  | "build installer" => some BuildingInstaller
  | "sign" => some Signing
  | "backup" => some BackingUp
  | "success" => some Success
  | "failed" => some Failed
  | "cancelled" => some Cancelled
  | _ => none

end TaskState

/-- The `impl std::str::FromStr for TaskState` from `repository/task.rs`
lines 422-444.  This is the parser invoked by `row_to_task` via
`state_str.parse()`; note it has **no** `"cancelled"` arm. -/
def taskStateFromStrTrait : String → Except String TaskState
  | "pending" => .ok .Pending
  | "checkout..." => .ok .CheckingOut
  | "start build" => .ok .StartBuild
  | "clean..." => .ok .Cleaning
  | "gen project" => .ok .GeneratingProject
  | "build pre_build" => .ok .BuildingPreBuild
  | "build base" => .ok .BuildingBase
  | "build chrome" => .ok .BuildingChrome
  | "combining" => .ok .Combining
  | "build installer" => .ok .BuildingInstaller
  | "sign" => .ok .Signing
  | "backup" => .ok .BackingUp
  | "success" => .ok .Success
  | "failed" => .ok .Failed
  | s => .error ("Unknown state: " ++ s)

/-- `row_to_task`'s state decoding from `repository/task.rs` lines 292-293:
`state_str.parse().unwrap_or(TaskState::Pending)`. -/
def rowStateOfString (s : String) : TaskState :=
  match taskStateFromStrTrait s with
  | .ok t => t
  | .error _ => .Pending

/-- One row of the `pkg` table, with the columns the verified repository
operations read or write (`repository/task.rs`). -/
structure Row where
  id : Int
  server : String
  parent_id : Option Int
  state : String
  end_time : String
  storage_path : String
  installer : String
  commit_id : String
  build_log : Option String
deriving Repr, DecidableEq

/-- `TaskRepository::has_running_task_on_server` from `repository/task.rs`
lines 91-105: `SELECT COUNT(*) FROM pkg WHERE server = ? AND state NOT IN
('pending', 'success', 'failed')`, then `count > 0`. -/
def hasRunningTaskOnServer (db : List Row) (server : String) : Bool :=
  (db.countP fun r =>
    r.server == server &&
      !(r.state == "pending" || r.state == "success" || r.state == "failed")) > 0

/-- `TaskRepository::reset_running_tasks` from `repository/task.rs` lines
367-378: `UPDATE pkg SET state = 'failed', end_time = datetime('now', ...)
WHERE state NOT IN ('pending', 'success', 'failed')`; returns the updated
table and `rows_affected()`.  `now` stands for the SQL datetime value. -/
def resetRunningTasks (db : List Row) (now : String) : List Row × Nat :=
  (db.map fun r =>
    if !(r.state == "pending" || r.state == "success" || r.state == "failed") then
      { r with state := "failed", end_time := now }
    else r,
   db.countP fun r =>
    !(r.state == "pending" || r.state == "success" || r.state == "failed"))

/-- `TaskRepository::update_state` from `repository/task.rs` lines 201-233,
executing `UPDATE_TASK` / `UPDATE_TASK_COMMIT_ID` (lines 18-35): both
statements bind `""` for `end_time`, `storage_path` and `installer`, and the
variant with a commit id additionally overwrites `commit_id`. -/
def updateState (db : List Row) (id : Int) (st : TaskState)
    (commit : Option String) : List Row :=
  db.map fun r =>
    if r.id == id then
      { r with end_time := "", storage_path := "", installer := "",
               state := st.asStr,
               commit_id := match commit with | some c => c | none => r.commit_id }
    else r

/-- The filter of `get_next_pending_child_task_on_server` (`repository/task.rs`
lines 142-157): `server = ? AND state = 'pending' AND parent_id IS NOT NULL`. -/
def isPendingChildRow (server : String) (r : Row) : Bool :=
  r.server == server && r.state == "pending" && r.parent_id.isSome

/-- The filter of `get_next_pending_task_on_server` (`repository/task.rs`
lines 124-139): `server = ? AND state = 'pending' AND parent_id IS NULL`. -/
def isPendingSingleRow (server : String) (r : Row) : Bool :=
  r.server == server && r.state == "pending" && r.parent_id.isNone

/-- `ORDER BY parent_id ASC, id ASC` as a boolean order on rows (only applied
to rows whose `parent_id` is present, so the `getD 0` default is inert). -/
def childOrderLe (a b : Row) : Bool :=
  decide (a.parent_id.getD 0 < b.parent_id.getD 0 ∨
    (a.parent_id.getD 0 = b.parent_id.getD 0 ∧ a.id ≤ b.id))

/-- `ORDER BY id ASC` as a boolean order on rows. -/
def idOrderLe (a b : Row) : Bool :=
  decide (a.id ≤ b.id)

/-- `ORDER BY ... LIMIT 1`: a row of the list minimal with respect to `le`. -/
def selectMin (le : Row → Row → Bool) : List Row → Option Row
  | [] => none
  | r :: rs =>
    match selectMin le rs with
    | none => some r
    | some m => if le r m then some r else some m

/-- `TaskRepository::get_next_pending_child_task_on_server`
(`repository/task.rs` lines 142-157). -/
def getNextPendingChildTaskOnServer (db : List Row) (server : String) :
    Option Int :=
  (selectMin childOrderLe (db.filter (isPendingChildRow server))).map (·.id)

/-- `TaskRepository::get_next_pending_task_on_server`
(`repository/task.rs` lines 124-139). -/
def getNextPendingTaskOnServer (db : List Row) (server : String) : Option Int :=
  (selectMin idOrderLe (db.filter (isPendingSingleRow server))).map (·.id)

/-- The task selection of `AppState::start_next_pending_task`
(`api/state.rs` lines 92-100): query the pending-child queue first; only when
it is empty, query the pending-single queue. -/
def startNextPendingTaskSelection (db : List Row) (server : String) :
    Option Int :=
  match getNextPendingChildTaskOnServer db server with
  | some id => some id
  | none => getNextPendingTaskOnServer db server

/-- The log text computed by `TaskRepository::append_build_log`
(`repository/task.rs` lines 324-353).  `currentLog` is the
`Option<Option<String>>` returned by the `SELECT build_log` query (`none` =
row absent, `some none` = NULL column).  Rust `String::len` is the UTF-8 byte
count, modelled by `String.utf8ByteSize`; the truncation chain
`chars().rev().take(n).collect().chars().rev().collect()` keeps the last
`n` characters. -/
def newBuildLog (currentLog : Option (Option String)) (logLine : String) :
    String :=
  match currentLog with
  | some (some log) =>
    let updated := log ++ "\n" ++ logLine
    if updated.utf8ByteSize > 100000 then
      String.mk ((updated.data.reverse.take 100000).reverse)
    else updated
  | _ => logLine

/-- The fields of `BuildRequest` (`model/build.rs`) consulted by the verified
pipeline code. -/
structure BuildRequest where
  branch : String
  commit_id : Option String
  pkg_flag : String
  is_update : Bool
  is_x64 : Bool
  architectures : List String
  platform : String
  is_increment : Bool
  is_signed : Bool
  server : String
deriving Repr, DecidableEq

/-- One configured pipeline step, `struct BuildStep` from `config/config.rs`
lines 111-119 (the unused `description` field is omitted). -/
structure BuildStep where
  name : String
  step_type : String
  target : Option String
  state : Option String
  skip_if : Option String
deriving Repr, DecidableEq

/-- Rust `str::contains` helper: `charsMatchAt pat s` is true when `pat` is
an initial segment of `s`. -/
def charsMatchAt : List Char → List Char → Bool
  | [], _ => true
  | _ :: _, [] => false
  | p :: ps, c :: cs => p == c && charsMatchAt ps cs

/-- Rust `str::contains`: `pat` occurs as a contiguous substring of `s`. -/
def charsContain (s pat : List Char) : Bool :=
  charsMatchAt pat s ||
    (match s with
     | [] => false
     | _ :: rest => charsContain rest pat)

/-- Rust `str::contains` on strings. -/
def strContains (s pat : String) : Bool :=
  charsContain s.data pat.data

/-- `should_skip_step` from `service/build/service.rs` lines 754-764: only a
`skip_if` containing `"is_update="` is consulted; it skips when the predicate
also contains `"is_update=false"` and the request's `is_update` is false. -/
def shouldSkipStep (step : BuildStep) (request : BuildRequest) : Bool :=
  match step.skip_if with
  | some skipIf =>
    if strContains skipIf "is_update=" then
      strContains skipIf "is_update=false" && !request.is_update
    else
      false
  | none => false

/-- Modelled from the spec: the skip-predicate evaluation the specification
declares ("currently supported keys are `is_update=<bool>` and
`target_os=<name>`.  A step is skipped iff its predicate evaluates true
against the request").  Kept separate from `shouldSkipStep`, which is the
source's behaviour, so the two can be compared. -/
def specSkipPredicate (skipIf : String) (request : BuildRequest) : Bool :=
  if skipIf = "is_update=true" then request.is_update
  else if skipIf = "is_update=false" then !request.is_update
  else if charsMatchAt "target_os=".data skipIf.data then
    String.mk (skipIf.data.drop 10) == request.platform
  else false

/-- The state set accepted by `all_children_completed_chrome`
(`repository/task.rs` lines 405-415) and by the inline children check of the
`combine` arm (`service/build/service.rs` lines 516-526): `BuildingChrome`
or any later on-path state. -/
def chromeOrLater : TaskState → Bool
  | .BuildingChrome => true
  | .Combining => true
  | .BuildingInstaller => true
  | .Signing => true
  | .BackingUp => true
  | .Success => true
  | _ => false

/-- `TaskRepository::all_children_completed_chrome` (`repository/task.rs`
lines 396-418) on the parsed states of the parent's children: false when
there are no children, else every child is in the chrome-or-later set (the
source's redundant `|| child.state == BuildingChrome` is kept). -/
def allChildrenCompletedChrome (children : List TaskState) : Bool :=
  if children.isEmpty then false
  else children.all fun c => chromeOrLater c || c == .BuildingChrome

/-- Outcome of `do_build`'s `Result<()>`. -/
inductive BuildOutcome where
  | ok
  | err (msg : String)
deriving Repr, DecidableEq

/-- The `combine` arm of `do_build` (`service/build/service.rs` lines
493-533).  `parentId` is the task's own `parent_id` column, `children` the
parsed states of `get_child_tasks(task_id)`.  The merge
(`combine_universal_pkg`) runs exactly when the result is `ok`. -/
def combineStepResult (request : BuildRequest) (parentId : Option Int)
    (children : List TaskState) : Except String Unit :=
  if request.platform ≠ "macos" then .error "组合任务仅支持 macOS"
  else if request.architectures.length < 2 then .error "组合任务需要至少2个架构"
  else if parentId.isSome then .error "组合步骤只能在父任务中执行"
  else if children.length < 2 then .error "组合任务需要至少2个子任务"
  else if !(children.all chromeOrLater) then .error "等待所有子任务完成 build chrome"
  else .ok ()

/-- The state trajectory of `do_build` (`service/build/service.rs` lines
347-698), as the pair (persisted state of the task when `do_build` returns,
outcome).  The step list is walked in order; `shouldSkipStep` causes a
`continue`; a non-skipped step first persists its declared `state` (parsed
with the inherent `TaskState::from_str`; an unparsable name leaves the state
unchanged, line 417-421).  The `installer` arm returns `Ok(())` from the
whole function when the task is a macOS child (lines 483-492); the `combine`
arm aborts with its error when `combineStepResult` fails.  When the loop
finishes, `update_completion` persists `Success` (lines 658-672).  External
subprocesses (git, gn, ninja, installer binaries) are abstracted as
succeeding and the cancellation flag as unset; the fan-in block (lines
569-655) only touches the parent's row, never this task's state, and is not
part of the returned pair. -/
def doBuildGo (request : BuildRequest) (parentId : Option Int)
    (children : List TaskState) :
    List BuildStep → TaskState → TaskState × BuildOutcome
  | [], _ => (.Success, .ok)
  | step :: rest, st =>
    if shouldSkipStep step request then
      doBuildGo request parentId children rest st
    else
      let stepState :=
        match step.state with
        | some stateStr =>
          match TaskState.fromStr stateStr with
          | some s => s
          | none => st
        | none => st
      if step.step_type == "installer" then
        if parentId.isSome && request.platform == "macos" then (stepState, .ok)
        else doBuildGo request parentId children rest stepState
      else if step.step_type == "combine" then
        match combineStepResult request parentId children with
        | .ok _ => doBuildGo request parentId children rest stepState
        | .error e => (stepState, .err e)
      else
        doBuildGo request parentId children rest stepState

/-- The failure write of `start_pending_task`'s completion closure
(`service/build/service.rs` lines 162-168): when `do_build` returned an
error, the task's persisted state is overwritten with `Failed`. -/
def persistAfterBuild (result : BuildOutcome) (persisted : TaskState) :
    TaskState :=
  match result with
  | .ok => persisted
  | .err _ => .Failed

/-- The promotion scheduling of `start_pending_task`'s completion closure
(`service/build/service.rs` lines 170-185): when the cancel flag is set,
nothing is scheduled; otherwise, when an `AppState` was handed in, a
follow-up `start_next_pending_task(server)` is scheduled after a 1-second
sleep.  The result is the delay in seconds of the scheduled promotion, if
any. -/
def promoteDelayAfterBuild (wasCancelled : Bool) (appState : Option Unit) :
    Option Nat :=
  if wasCancelled then none
  else
    match appState with
    | some _ => some 1
    | none => none

/-- A server row whose `state` column is the string `as_str` emits for
`Cancelled`; used to probe the `NOT IN` filters. -/
def cancelledRowC1 : Row :=
  { id := 1, server := "srv", parent_id := none, state := "cancelled",
    end_time := "", storage_path := "", installer := "", commit_id := "",
    build_log := none }

/-- A cancelled row with a recorded `end_time`, for the `reset_orphaned`
counterexample. -/
def cancelledRowC4 : Row :=
  { id := 2, server := "srv", parent_id := none, state := "cancelled",
    end_time := "2024-01-01 00:00:00", storage_path := "", installer := "",
    commit_id := "", build_log := none }

/-- A macOS multi-architecture build request, used as a concrete probe for
the pipeline claims. -/
def macosRequest : BuildRequest :=
  { branch := "main", commit_id := none, pkg_flag := "r", is_update := false,
    is_x64 := false, architectures := ["arm64", "x64"], platform := "macos",
    is_increment := false, is_signed := false, server := "M1" }

/-- The tail of a macOS child's configured step list: the `ninja chrome`
step followed by the `installer` step, with the states the spec's pipeline
assigns them. -/
def macosChildSteps : List BuildStep :=
  [{ name := "build_chrome", step_type := "ninja", target := some "chrome",
     state := some "build chrome", skip_if := none },
   { name := "build_installer", step_type := "installer", target := none,
     state := some "build installer", skip_if := none }]

/-- A step guarded by a `target_os=macos` skip predicate, used to probe
`should_skip_step`. -/
def targetOsStep : BuildStep :=
  { name := "build_installer", step_type := "installer", target := none,
    state := some "build installer", skip_if := some "target_os=macos" }

/-- A pending single task row (no parent), for the promotion-order witness. -/
def singleRowC8 : Row :=
  { id := 3, server := "srv", parent_id := none, state := "pending",
    end_time := "", storage_path := "", installer := "", commit_id := "",
    build_log := none }

/-- A pending child task row, for the promotion-order witness. -/
def childRowC8 : Row :=
  { id := 4, server := "srv", parent_id := some 1, state := "pending",
    end_time := "", storage_path := "", installer := "", commit_id := "",
    build_log := none }

/-- A table holding both a pending single task and a pending child task on
the same server. -/
def dbC8 : List Row := [singleRowC8, childRowC8]

/-- A row with completion data recorded, used to probe `update_state`'s
frame effect. -/
def rowC10 : Row :=
  { id := 7, server := "srv", parent_id := none, state := "build chrome",
    end_time := "2024-01-01 00:00:00", storage_path := "/srv/path",
    installer := "pkg.dmg", commit_id := "c0ffee", build_log := none }

/-- The row `update_state(7, Signing, None)` produces from `rowC10`. -/
def updatedRowC10 : Row :=
  { rowC10 with end_time := "", storage_path := "", installer := "",
                state := TaskState.Signing.asStr }

theorem utf8Go_ge_length (l : List Char) :
    l.length ≤ (String.mk l).utf8ByteSize := by
  induction l with
  | nil => simp [String.utf8ByteSize, String.utf8ByteSize.go]
  | cons c cs ih =>
    simp only [String.utf8ByteSize, String.utf8ByteSize.go,
      List.length_cons] at *
    have := Char.utf8Size_pos c
    omega

theorem string_length_le_utf8ByteSize (s : String) :
    s.length ≤ s.utf8ByteSize := by
  cases s with
  | mk data => simpa [String.length] using utf8Go_ge_length data

theorem selectMin_isSome {le : Row → Row → Bool} (a : Row) (as : List Row) :
    (selectMin le (a :: as)).isSome = true := by
  simp only [selectMin]
  cases hm : selectMin le as with
  | none => rfl
  | some m =>
    dsimp only
    split <;> rfl

theorem selectMin_eq_none {le : Row → Row → Bool} :
    ∀ {l : List Row}, selectMin le l = none → l = [] := by
  intro l h
  cases l with
  | nil => rfl
  | cons a as =>
    have hs := @selectMin_isSome le a as
    rw [h] at hs
    simp at hs

theorem selectMin_mem {le : Row → Row → Bool} :
    ∀ {l : List Row} {r : Row}, selectMin le l = some r → r ∈ l := by
  intro l
  induction l with
  | nil => intro r h; simp [selectMin] at h
  | cons a as ih =>
    intro r h
    cases hm : selectMin le as with
    | none =>
      simp only [selectMin, hm] at h
      cases h
      exact List.mem_cons_self a as
    | some m =>
      simp only [selectMin, hm] at h
      by_cases hle : le a m = true
      · rw [if_pos hle] at h
        cases h
        exact List.mem_cons_self a as
      · rw [if_neg hle] at h
        cases h
        exact List.mem_cons_of_mem a (ih hm)

theorem selectMin_le {le : Row → Row → Bool}
    (htot : ∀ a b, le a b = true ∨ le b a = true)
    (htrans : ∀ a b c, le a b = true → le b c = true → le a c = true) :
    ∀ {l : List Row} {r : Row}, selectMin le l = some r →
      ∀ x ∈ l, le r x = true := by
  intro l
  induction l with
  | nil => intro r h; simp [selectMin] at h
  | cons a as ih =>
    intro r h x hx
    have hrefl : ∀ b, le b b = true := fun b => (htot b b).elim id id
    cases hm : selectMin le as with
    | none =>
      simp only [selectMin, hm] at h
      cases h
      have has : as = [] := selectMin_eq_none hm
      subst has
      rcases List.mem_singleton.mp hx with rfl
      exact hrefl x
    | some m =>
      simp only [selectMin, hm] at h
      by_cases hle : le a m = true
      · rw [if_pos hle] at h
        cases h
        rcases List.mem_cons.mp hx with rfl | hx'
        · exact hrefl x
        · exact htrans _ _ _ hle (ih hm x hx')
      · rw [if_neg hle] at h
        cases h
        rcases List.mem_cons.mp hx with rfl | hx'
        · rcases htot r x with h' | h'
          · exact h'
          · exact absurd h' hle
        · exact ih hm x hx'

theorem childOrderLe_total (a b : Row) :
    childOrderLe a b = true ∨ childOrderLe b a = true := by
  simp only [childOrderLe, decide_eq_true_eq]
  omega

theorem childOrderLe_trans (a b c : Row)
    (hab : childOrderLe a b = true) (hbc : childOrderLe b c = true) :
    childOrderLe a c = true := by
  simp only [childOrderLe, decide_eq_true_eq] at *
  omega

theorem idOrderLe_total (a b : Row) :
    idOrderLe a b = true ∨ idOrderLe b a = true := by
  simp only [idOrderLe, decide_eq_true_eq]
  omega

theorem idOrderLe_trans (a b c : Row)
    (hab : idOrderLe a b = true) (hbc : idOrderLe b c = true) :
    idOrderLe a c = true := by
  simp only [idOrderLe, decide_eq_true_eq] at *
  omega

/-- C1 counterexample: a table holding one task whose `state` column is
`"cancelled"` on server `"srv"`.  `has_running_task_on_server` reports
`true`, yet no task on that server has a state outside
{Pending, Success, Failed, Cancelled}, so the claimed iff fails. -/
theorem hasRunning_counts_cancelled_counterexample :
    hasRunningTaskOnServer [cancelledRowC1] "srv" = true ∧
    ¬ ∃ r ∈ [cancelledRowC1], r.server = "srv" ∧
        r.state ∉ [TaskState.Pending.asStr, TaskState.Success.asStr,
                   TaskState.Failed.asStr, TaskState.Cancelled.asStr] := by
  constructor
  · decide
  · decide

/-- C1 (amended): `has_running_task_on_server(S)` returns true iff some task
on S has a state column outside {`'pending'`, `'success'`, `'failed'`} — the
SQL `NOT IN` list omits `'cancelled'`, so a task in state Cancelled counts
as running. -/
theorem hasRunning_iff_state_not_pending_success_failed
    (db : List Row) (server : String) :
    hasRunningTaskOnServer db server = true ↔
      ∃ r ∈ db, r.server = server ∧
        r.state ∉ [TaskState.Pending.asStr, TaskState.Success.asStr,
                   TaskState.Failed.asStr] := by
  simp [hasRunningTaskOnServer, List.countP_pos_iff, TaskState.asStr,
    not_or, and_assoc]

/-- C2: a macOS child task (parent_id set, platform macos) walking the
`ninja chrome` / `installer` tail of its step list: `do_build` persists
`build chrome`, then `build installer`, then returns `Ok(())` from the
installer arm (service.rs lines 483-492) without ever reaching
`update_completion` — the task is left in the non-terminal state
`BuildingInstaller`, not `Success`. -/
theorem macos_child_installer_skip_leaves_nonterminal :
    doBuildGo macosRequest (some 1)
      [.BuildingChrome, .BuildingChrome] macosChildSteps .StartBuild
      = (.BuildingInstaller, .ok) ∧
    (TaskState.BuildingInstaller ≠ TaskState.Success) := by
  exact ⟨by decide, by decide⟩

/-- C3: the `FromStr` implementation used by `row_to_task` has no arm for
`"cancelled"`, so `from_str(as_str(Cancelled))` is an error and a task row
persisted as cancelled is read back as `Pending`, not `Cancelled`. -/
theorem cancelled_roundtrip_fails :
    taskStateFromStrTrait TaskState.Cancelled.asStr
      = .error "Unknown state: cancelled" ∧
    rowStateOfString TaskState.Cancelled.asStr = .Pending ∧
    TaskState.Pending ≠ TaskState.Cancelled := by
  exact ⟨rfl, rfl, by decide⟩

/-- C4 counterexample: `reset_running_tasks` does not leave a `Cancelled`
task unchanged — its `WHERE state NOT IN ('pending','success','failed')`
matches the `'cancelled'` row and rewrites it to `failed`. -/
theorem resetRunningTasks_changes_cancelled_counterexample :
    (resetRunningTasks [cancelledRowC4] "NOW").1 ≠ [cancelledRowC4] ∧
    (resetRunningTasks [cancelledRowC4] "NOW").1
      = [{ cancelledRowC4 with state := "failed", end_time := "NOW" }] ∧
    (resetRunningTasks [cancelledRowC4] "NOW").2 = 1 := by
  refine ⟨by decide, rfl, rfl⟩

/-- C5 counterexample: the `combine` arm with a macOS two-architecture
request on a parent task whose children are in states Pending and
BuildingChrome: the fan-in predicate is false and the step returns the error
`"等待所有子任务完成 build chrome"`, which the completion closure turns into the
persisted state `Failed` — not a retry-later outcome. -/
theorem combine_not_ready_errors_counterexample :
    combineStepResult macosRequest none [.Pending, .BuildingChrome]
      = .error "等待所有子任务完成 build chrome" ∧
    allChildrenCompletedChrome [.Pending, .BuildingChrome] = false ∧
    persistAfterBuild (.err "等待所有子任务完成 build chrome") .Combining
      = .Failed := by
  exact ⟨rfl, rfl, rfl⟩

/-- C6 counterexample: for the step guarded by `skip_if = "target_os=macos"`
and a request with platform macos, the spec-declared predicate evaluates
true, yet `should_skip_step` does not skip (it only consults
`is_update=`). -/
theorem skip_target_os_ignored_counterexample :
    specSkipPredicate "target_os=macos" macosRequest = true ∧
    shouldSkipStep targetOsStep macosRequest = false ∧
    specSkipPredicate "is_update=true" { macosRequest with is_update := true }
      = true ∧
    shouldSkipStep { targetOsStep with skip_if := some "is_update=true" }
      { macosRequest with is_update := true } = false := by
  refine ⟨by decide, by decide, by decide, by decide⟩

/-- C7: after `do_build` finishes, the completion closure schedules the
follow-up `start_next_pending_task(server)` with a 1-second delay exactly
when the cancel flag was not set (and an `AppState` was handed in);
cancellation never auto-chains. -/
theorem promotion_scheduled_iff_not_cancelled (wasCancelled : Bool) :
    (promoteDelayAfterBuild wasCancelled (some ())
      = if wasCancelled then none else some 1) ∧
    ((promoteDelayAfterBuild wasCancelled (some ())).isSome = true ↔
      wasCancelled = false) ∧
    promoteDelayAfterBuild true (some ()) = none := by
  cases wasCancelled <;> exact ⟨rfl, by decide, rfl⟩

/-- C9 counterexample: appending a 100001-character line to a task whose
`build_log` column is NULL stores the line verbatim — the `else` branch of
`append_build_log` performs no truncation, so the persisted log exceeds
100000 characters. -/
theorem append_log_null_branch_exceeds_cap_counterexample :
    100000 < (newBuildLog (some none)
      (String.mk (List.replicate 100001 'a'))).length := by
  have h : newBuildLog (some none) (String.mk (List.replicate 100001 'a'))
      = String.mk (List.replicate 100001 'a') := rfl
  rw [h]
  show 100000 < (List.replicate 100001 'a').length
  rw [List.length_replicate]
  omega

/-- C9 (amended): appending to a task whose stored log is present (non-NULL)
always yields at most 100000 characters: the line is appended after a
newline and, when the byte length exceeds the cap, only the last 100000
characters are kept. -/
theorem append_log_existing_log_capped (log logLine : String) :
    (newBuildLog (some (some log)) logLine).length ≤ 100000 := by
  have hred : newBuildLog (some (some log)) logLine
      = if (log ++ "\n" ++ logLine).utf8ByteSize > 100000 then
          String.mk
            (((log ++ "\n" ++ logLine).data.reverse.take 100000).reverse)
        else (log ++ "\n" ++ logLine) := rfl
  rw [hred]
  by_cases h : (log ++ "\n" ++ logLine).utf8ByteSize > 100000
  · rw [if_pos h]
    show (((log ++ "\n" ++ logLine).data.reverse.take 100000).reverse).length
      ≤ 100000
    simp [List.length_take]
  · rw [if_neg h]
    have h1 := string_length_le_utf8ByteSize (log ++ "\n" ++ logLine)
    omega

theorem running_cond_iff (s : String) :
    (!(s == "pending" || s == "success" || s == "failed")) = true ↔
      ¬(s = "pending" ∨ s = "success" ∨ s = "failed") := by
  simp [not_or, and_assoc]

/-- C4 (amended): `reset_running_tasks` rewrites exactly the tasks whose
state column lies outside {`'pending'`, `'success'`, `'failed'`} — which
includes `Cancelled` tasks — to `failed` with `end_time` set, leaving
Pending/Success/Failed rows unchanged; afterwards every row's state is one
of those three strings. -/
theorem resetRunningTasks_spec (db : List Row) (now : String) :
    List.Forall₂ (fun r r' =>
      r' = if r.state = "pending" ∨ r.state = "success" ∨ r.state = "failed"
           then r
           else { r with state := "failed", end_time := now })
      db (resetRunningTasks db now).1 ∧
    ∀ r' ∈ (resetRunningTasks db now).1,
      r'.state = "pending" ∨ r'.state = "success" ∨ r'.state = "failed" := by
  constructor
  · show List.Forall₂ _ db (db.map _)
    induction db with
    | nil => exact List.Forall₂.nil
    | cons a as ih =>
      refine List.Forall₂.cons ?_ ih
      dsimp only
      by_cases hc : a.state = "pending" ∨ a.state = "success" ∨
          a.state = "failed"
      · rw [if_pos hc, if_neg (fun hb => (running_cond_iff a.state).mp hb hc)]
      · rw [if_neg hc, if_pos ((running_cond_iff a.state).mpr hc)]
  · intro r' hr'
    obtain ⟨r, hr, rfl⟩ := List.mem_map.mp hr'
    by_cases hc : r.state = "pending" ∨ r.state = "success" ∨
        r.state = "failed"
    · rw [if_neg (fun hb => (running_cond_iff r.state).mp hb hc)]
      exact hc
    · rw [if_pos ((running_cond_iff r.state).mpr hc)]
      right; right; rfl

/-- Witness for C4's amended theorem at the cancelled row: the transformed
row's state is among the three strings the `NOT IN` filter spares. -/
theorem resetRunningTasks_spec_witness :
    ({ cancelledRowC4 with state := "failed", end_time := "NOW" } : Row).state
        = "pending" ∨
    ({ cancelledRowC4 with state := "failed", end_time := "NOW" } : Row).state
        = "success" ∨
    ({ cancelledRowC4 with state := "failed", end_time := "NOW" } : Row).state
        = "failed" :=
  (resetRunningTasks_spec [cancelledRowC4] "NOW").2 _ (by decide)

/-- C5 (amended): the `combine` arm runs its merge exactly when the request
is macOS with at least two architectures, the task is a parent, there are at
least two children, and every child's state is chrome-or-later (which
entails `all_children_completed_chrome`); when the children are not all past
chrome (the other checks passing), the step returns the error
`"等待所有子任务完成 build chrome"`, and a step error makes the completion closure
persist `Failed` — there is no retry-later outcome. -/
theorem combine_gate_spec (request : BuildRequest) (parentId : Option Int)
    (children : List TaskState) :
    ((combineStepResult request parentId children = .ok ()) ↔
      (request.platform = "macos" ∧ 2 ≤ request.architectures.length ∧
       parentId = none ∧ 2 ≤ children.length ∧
       children.all chromeOrLater = true)) ∧
    ((combineStepResult request parentId children = .ok ()) →
      allChildrenCompletedChrome children = true) ∧
    (request.platform = "macos" → 2 ≤ request.architectures.length →
     parentId = none → 2 ≤ children.length →
     children.all chromeOrLater = false →
      combineStepResult request parentId children
        = .error "等待所有子任务完成 build chrome") ∧
    (∀ msg persisted, persistAfterBuild (.err msg) persisted = .Failed) := by
  have hiff : (combineStepResult request parentId children = .ok ()) ↔
      (request.platform = "macos" ∧ 2 ≤ request.architectures.length ∧
       parentId = none ∧ 2 ≤ children.length ∧
       children.all chromeOrLater = true) := by
    unfold combineStepResult
    split_ifs with h1 h2 h3 h4 h5
    · simp [h1]
    · simp only [not_ne_iff] at h1
      simp only [reduceCtorEq, false_iff, not_and]
      intro _ hlen
      omega
    · simp only [reduceCtorEq, false_iff, not_and]
      intro _ _ hp
      rw [hp] at h3
      simp at h3
    · simp only [reduceCtorEq, false_iff, not_and]
      intro _ _ _ hlen
      omega
    · simp only [Bool.not_eq_true'] at h5
      simp only [reduceCtorEq, false_iff, not_and]
      intro _ _ _ _ hall
      rw [hall] at h5
      cases h5
    · simp only [not_ne_iff] at h1
      simp only [not_lt] at h2 h4
      simp only [Bool.not_eq_true, Option.not_isSome,
        Option.isNone_iff_eq_none] at h3
      have h5' : children.all chromeOrLater = true := by
        revert h5
        cases children.all chromeOrLater <;> simp
      simp [h1, h2, h3, h4, h5']
  refine ⟨hiff, ?_, ?_, fun msg persisted => rfl⟩
  · intro hok
    obtain ⟨-, -, -, hlen, hall⟩ := hiff.mp hok
    unfold allChildrenCompletedChrome
    have hne : children.isEmpty = false := by
      cases children with
      | nil => simp at hlen
      | cons c cs => rfl
    rw [hne]
    simp only [Bool.false_eq_true, if_false]
    rw [List.all_eq_true] at hall ⊢
    intro c hc
    rw [hall c hc]
    rfl
  · intro hplat harch hpar hlen hall
    unfold combineStepResult
    rw [if_neg (by simp [hplat]), if_neg (by omega),
      if_neg (by simp [hpar]), if_neg (by omega), if_pos (by simp [hall])]

/-- Witness for C5's amended theorem: a macOS parent whose two children are
both still `Pending` makes the combine arm return the waiting error. -/
theorem combine_gate_spec_witness :
    combineStepResult macosRequest none [.Pending, .Pending]
      = .error "等待所有子任务完成 build chrome" :=
  (combine_gate_spec macosRequest none [.Pending, .Pending]).2.2.1
    rfl (by decide) rfl (by decide) (by decide)

/-- C6 (amended): `should_skip_step` skips a step iff its `skip_if`
predicate contains `"is_update="`, contains `"is_update=false"`, and the
request's `is_update` is false; in particular a missing predicate, an
`"is_update=true"` predicate and a `"target_os=..."` predicate never cause
a skip. -/
theorem shouldSkip_iff (step : BuildStep) (request : BuildRequest) :
    shouldSkipStep step request = true ↔
      ∃ s, step.skip_if = some s ∧ strContains s "is_update=" = true ∧
        strContains s "is_update=false" = true ∧
        request.is_update = false := by
  cases h : step.skip_if with
  | none => simp [shouldSkipStep, h]
  | some s =>
    simp only [shouldSkipStep, h]
    by_cases hc : strContains s "is_update=" = true
    · rw [if_pos hc]
      simp [hc, Bool.and_eq_true, Bool.not_eq_true']
    · rw [if_neg hc]
      simp [hc]

/-- C8: `start_next_pending_task` selects a pending child task minimal in
the `(parent_id, id)` order whenever any pending child exists on the server,
and only when none exists does it select a pending single task minimal in
the `id` order — pending children are always preferred over pending
singles. -/
theorem promotion_prefers_children_oldest_first (db : List Row)
    (server : String) :
    ((∃ r ∈ db, isPendingChildRow server r = true) →
      ∃ rc ∈ db, isPendingChildRow server rc = true ∧
        startNextPendingTaskSelection db server = some rc.id ∧
        ∀ x ∈ db, isPendingChildRow server x = true →
          childOrderLe rc x = true) ∧
    ((∀ r ∈ db, isPendingChildRow server r = false) →
      (∃ r ∈ db, isPendingSingleRow server r = true) →
      ∃ rs ∈ db, isPendingSingleRow server rs = true ∧
        startNextPendingTaskSelection db server = some rs.id ∧
        ∀ x ∈ db, isPendingSingleRow server x = true →
          idOrderLe rs x = true) := by
  constructor
  · rintro ⟨r, hr, hpr⟩
    have hfil : r ∈ db.filter (isPendingChildRow server) :=
      List.mem_filter.mpr ⟨hr, hpr⟩
    cases hsel : selectMin childOrderLe (db.filter (isPendingChildRow server))
      with
    | none =>
      rw [selectMin_eq_none hsel] at hfil
      simp at hfil
    | some rc =>
      have hrc := List.mem_filter.mp (selectMin_mem hsel)
      refine ⟨rc, hrc.1, hrc.2, ?_, ?_⟩
      · unfold startNextPendingTaskSelection getNextPendingChildTaskOnServer
        rw [hsel]
        rfl
      · intro x hx hpx
        exact selectMin_le childOrderLe_total childOrderLe_trans hsel x
          (List.mem_filter.mpr ⟨hx, hpx⟩)
  · rintro hno ⟨r, hr, hpr⟩
    have hfil : db.filter (isPendingChildRow server) = [] := by
      rw [List.filter_eq_nil_iff]
      intro a ha
      simp [hno a ha]
    have hfils : r ∈ db.filter (isPendingSingleRow server) :=
      List.mem_filter.mpr ⟨hr, hpr⟩
    cases hsel : selectMin idOrderLe (db.filter (isPendingSingleRow server))
      with
    | none =>
      rw [selectMin_eq_none hsel] at hfils
      simp at hfils
    | some rs =>
      have hrs := List.mem_filter.mp (selectMin_mem hsel)
      refine ⟨rs, hrs.1, hrs.2, ?_, ?_⟩
      · unfold startNextPendingTaskSelection getNextPendingChildTaskOnServer
          getNextPendingTaskOnServer
        rw [hfil, hsel]
        rfl
      · intro x hx hpx
        exact selectMin_le idOrderLe_total idOrderLe_trans hsel x
          (List.mem_filter.mpr ⟨hx, hpx⟩)

/-- Witness for C8's theorem: on a table holding a pending single task
(id 3) and a pending child task (id 4) on the same server, promotion picks
the child, id 4. -/
theorem promotion_prefers_children_witness :
    startNextPendingTaskSelection dbC8 "srv" = some 4 := by
  obtain ⟨rc, hmem, hpc, hsel, -⟩ :=
    (promotion_prefers_children_oldest_first dbC8 "srv").1
      ⟨childRowC8, by decide, by decide⟩
  have hcases : rc = singleRowC8 ∨ rc = childRowC8 := by
    simpa [dbC8] using hmem
  rcases hcases with rfl | rfl
  · exact absurd hpc (by decide)
  · exact hsel

/-- C10: every `update_state(id, state, opt_commit)` call overwrites the
matching row's `end_time`, `storage_path` and `installer` columns with the
empty string (besides writing the state string); rows with another id are
left unchanged. -/
theorem updateState_erases_completion_fields (db : List Row) (id : Int)
    (st : TaskState) (commit : Option String) (r' : Row)
    (h : r' ∈ updateState db id st commit) :
    (r'.id = id → r'.end_time = "" ∧ r'.storage_path = "" ∧
      r'.installer = "" ∧ r'.state = st.asStr) ∧
    (r'.id ≠ id → r' ∈ db) := by
  obtain ⟨r, hr, rfl⟩ := List.mem_map.mp h
  by_cases hid : r.id = id
  · rw [if_pos (by simp [hid])]
    refine ⟨fun _ => ⟨rfl, rfl, rfl, rfl⟩, fun hne => absurd hid hne⟩
  · rw [if_neg (by simp [hid])]
    exact ⟨fun hEq => absurd hEq hid, fun _ => hr⟩

/-- Witness for C10's theorem: updating row 7 (which has completion data
recorded) to `Signing` yields a row with empty `end_time`, `storage_path`
and `installer`. -/
theorem updateState_erases_witness :
    updatedRowC10.end_time = "" ∧ updatedRowC10.storage_path = "" ∧
    updatedRowC10.installer = "" ∧
    updatedRowC10.state = TaskState.Signing.asStr :=
  (updateState_erases_completion_fields [rowC10] 7 .Signing none
    updatedRowC10 (by decide)).1 rfl

end ChromiumTool
